import Mathlib

/-!
# sframe `ServiceDispatcher`: registry and router

A shallow embedding of `src/sframe/serv/ServiceDispatcher.h`:

* `RegistService` (lines 139-163) as a state-passing function on the
  dispatcher fields it touches;
* `SendInsideServiceMsg`, `SendNetServiceMsg`, `SendServiceMsg`
  (lines 50-109) as functions returning the list of `SendMsg(sid, msg)`
  calls they make.

`assert` is embedded with both of its meanings: with `NDEBUG = false` a
failed assertion terminates the process (`Outcome.abort`), with
`NDEBUG = true` the assertion is compiled out and control falls through.
-/

namespace sframe

/-! ## Data model -/

/-- The constant `kMaxServiceId` (line 26). -/
def kMaxServiceId : Int := 1024

/-- Result of running a member function: the process was terminated by a
failed `assert`, the behaviour is undefined (an array index outside its
bounds), or the function returned. -/
inductive Outcome (α : Type) where
  | abort : Outcome α
  | undefined : Outcome α
  | ret : α → Outcome α
deriving DecidableEq, Repr

/-- Modelled from the spec: class `Service` (`Service.h`) is missing from
src/. The spec gives a service an identity id and an optional cycle period
(0 = disabled); the source reads and writes them through `SetServiceId` and
`GetCyclePeriod` (lines 150, 154). -/
structure Service where
  sid : Int
  cycle_period : Int
deriving DecidableEq, Repr

/-- Modelled from the spec: `Service::SetServiceId` assigns the identity. -/
def Service.SetServiceId (s : Service) (sid : Int) : Service :=
  { s with sid := sid }

/-- Modelled from the spec: `Service::GetCyclePeriod` reads the declared
cycle period (an `int32_t`, line 154). -/
def Service.GetCyclePeriod (s : Service) : Int :=
  s.cycle_period

/-- Modelled from the spec: `CycleMessage` (`Message.h`) is missing from
src/; it is the reusable tick message built from the period (line 186). -/
structure CycleMessage where
  period : Int
deriving DecidableEq, Repr

/-- The nested struct `CycleTimer` (lines 182-192). -/
structure CycleTimer where
  sid : Int
  next_time : Int
  msg : CycleMessage
deriving DecidableEq, Repr

/-- The constructor `CycleTimer(sid, period)` (lines 184-187). -/
def CycleTimer.new (sid : Int) (period : Int) : CycleTimer :=
  { sid := sid, next_time := 0, msg := { period := period } }

/-- The fields of `ServiceDispatcher` that registration and routing use
(lines 173-176, 194). `_services` is the array of `kMaxServiceId + 1`
owning pointers, `none` standing for the null pointer; only the indices
`0 .. kMaxServiceId` exist. -/
structure ServiceDispatcher where
  _services : Nat → Option Service
  _max_sid : Int
  _local_sid : List Int
  _running : Bool
  _cycle_timers : List CycleTimer

/-- Modelled from the spec: the constructor (`ServiceDispatcher.cpp`) is
missing from src/. The dispatcher before any registration has every slot
null, no local id, no timer, maximum id 0, and is not started. -/
def ServiceDispatcher.empty : ServiceDispatcher :=
  { _services := fun _ => none
    _max_sid := 0
    _local_sid := []
    _running := false
    _cycle_timers := [] }

/-! ## Registration -/

/-- The template `RegistService<T>(sid)` (lines 139-163). `newT` is the
default-constructed `T` of line 149. Returns the new dispatcher state and
the returned pointer (`none` = `nullptr`). -/
def RegistService (NDEBUG : Bool) (d : ServiceDispatcher) (newT : Service) (sid : Int) :
    Outcome (ServiceDispatcher × Option Service) :=
  if !NDEBUG && d._running then
    Outcome.abort
  else if sid < 1 ∨ sid > kMaxServiceId ∨ (d._services sid.toNat).isSome then
    Outcome.ret (d, none)
  else
    let s := newT.SetServiceId sid
    let d1 := { d with _max_sid := if sid > d._max_sid then sid else d._max_sid }
    let d2 := { d1 with _local_sid := d1._local_sid ++ [sid] }
    let period := s.GetCyclePeriod
    let d3 :=
      if period > 0 then
        { d2 with _cycle_timers := d2._cycle_timers ++ [CycleTimer.new sid period] }
      else d2
    Outcome.ret ({ d3 with _services := Function.update d3._services sid.toNat (some s) }, some s)

/-- A sequence of `RegistService` calls, each with its own template argument
(the default-constructed instance) and id, run one after the other. -/
def registSeq (NDEBUG : Bool) (d : ServiceDispatcher) :
    List (Service × Int) → Outcome ServiceDispatcher
  | [] => Outcome.ret d
  | (newT, sid) :: rest =>
    match RegistService NDEBUG d newT sid with
    | Outcome.ret (d1, _) => registSeq NDEBUG d1 rest
    | Outcome.abort => Outcome.abort
    | Outcome.undefined => Outcome.undefined

/-- Slot `sid` of the registry holds an instance. -/
def ServiceDispatcher.registered (d : ServiceDispatcher) (sid : Int) : Prop :=
  0 ≤ sid ∧ sid ≤ kMaxServiceId ∧ (d._services sid.toNat).isSome

instance ServiceDispatcher.decidableRegistered (d : ServiceDispatcher) (sid : Int) :
    Decidable (d.registered sid) := by
  unfold ServiceDispatcher.registered
  infer_instance

/-- The pointer a `RegistService` call returned (`some none` = it returned
`nullptr`); `none` when the call did not return. -/
def returnedPtr : Outcome (ServiceDispatcher × Option Service) → Option (Option Service)
  | Outcome.ret (_, p) => some p
  | _ => none

/-- The state a `RegistService` call left behind; `none` when the call did
not return. -/
def stateAfter : Outcome (ServiceDispatcher × Option Service) → Option ServiceDispatcher
  | Outcome.ret (d, _) => some d
  | _ => none

/-- The facts that hold of a dispatcher built from the empty one by
`RegistService` calls only. -/
structure RegistryInv (d : ServiceDispatcher) : Prop where
  not_running : d._running = false
  nodup : d._local_sid.Nodup
  local_iff : ∀ i : Int, i ∈ d._local_sid ↔
    1 ≤ i ∧ i ≤ kMaxServiceId ∧ (d._services i.toNat).isSome
  slot_range : ∀ n : Nat, (d._services n).isSome → 1 ≤ n ∧ (n : Int) ≤ kMaxServiceId
  slot_sid : ∀ (n : Nat) (s : Service), d._services n = some s → s.sid = n
  timer_nodup : (d._cycle_timers.map CycleTimer.sid).Nodup
  timer_owner : ∀ t ∈ d._cycle_timers, ∃ s, d._services t.sid.toNat = some s ∧
    1 ≤ t.sid ∧ t.sid ≤ kMaxServiceId ∧ t.msg.period = s.cycle_period ∧ 0 < s.cycle_period
  timer_exists : ∀ (n : Nat) (s : Service), d._services n = some s → 0 < s.cycle_period →
    ∃ t ∈ d._cycle_timers, t.sid = n
  max_bound : ∀ x ∈ d._local_sid, x ≤ d._max_sid
  max_mem : d._max_sid ∈ d._local_sid ∨ (d._max_sid = 0 ∧ d._local_sid = [])

/-- The value an outcome returned, if it returned. -/
def Outcome.toOption {α : Type} : Outcome α → Option α
  | Outcome.ret a => some a
  | _ => none

/-- The dispatcher in which only service 5, without a cycle period, is
registered. -/
def ServiceDispatcher.withFive : ServiceDispatcher :=
  { _services := Function.update (fun _ => none) 5 (some { sid := 5, cycle_period := 0 })
    _max_sid := 5
    _local_sid := [5]
    _running := false
    _cycle_timers := [] }

/-- The payload of an `InsideServiceMessage<...>`: the argument pack of a
local send (line 55), or the pair built by the remote path (lines 86-87):
the original destination id and the shared byte vector. -/
inductive Payload (A : Type) where
  | args : List A → Payload A
  | frame : Int → List Nat → Payload A
deriving DecidableEq, Repr

/-- The envelope fields set on every message (lines 56-58, 88-90). -/
structure Message (A : Type) where
  src_sid : Int
  dest_sid : Int
  msg_id : Nat
  payload : Payload A
deriving DecidableEq, Repr

/-- One element of a variadic pack handed to `AutoGetSize` / `AutoEncode`:
a `uint16_t`, an `int32_t`, or a caller argument. -/
inductive Field (A : Type) where
  | u16 : Nat → Field A
  | i32 : Int → Field A
  | arg : A → Field A
deriving DecidableEq, Repr

/-- Modelled from the spec: `Serialization.h` and `ProxyServiceMsg.h` are
missing from src/, so the serializer is a parameter. Integers are
fixed-width (`encU16` is two bytes, the u16 size field of the wire frame,
`encI32` four); for a caller argument `sizeArg` is what the size probe
`AutoGetSize` reports and `encArg` the bytes `AutoEncode` writes, and nothing
forces the two to agree. `kProxyServiceMsgId_SendToRemoteService` is the
reserved forward-to-remote message kind. -/
structure Serializer (A : Type) where
  encU16 : Nat → List Nat
  decU16 : List Nat → Nat
  encI32 : Int → List Nat
  sizeArg : A → Nat
  encArg : A → List Nat
  kProxyServiceMsgId_SendToRemoteService : Nat
  encU16_length : ∀ v, (encU16 v).length = 2
  encI32_length : ∀ v, (encI32 v).length = 4
  decU16_encU16 : ∀ v, v < 65536 → decU16 (encU16 v) = v

/-- Size the probe reports for one field: `sizeof` for the integers. -/
def Serializer.size {A : Type} (S : Serializer A) : Field A → Nat
  | Field.u16 _ => 2
  | Field.i32 _ => 4
  | Field.arg a => S.sizeArg a

/-- Bytes the encoder writes for one field. -/
def Serializer.enc {A : Type} (S : Serializer A) : Field A → List Nat
  | Field.u16 v => S.encU16 v
  | Field.i32 v => S.encI32 v
  | Field.arg a => S.encArg a

/-- Modelled from the spec: variadic `AutoGetSize(args...)` is the sum of
the probed sizes of its arguments. -/
def AutoGetSize {A : Type} (S : Serializer A) (fs : List (Field A)) : Nat :=
  (fs.map S.size).sum

/-- Modelled from the spec: `StreamWriter(buf, len)` writes into `len` bytes
starting at `buf`; `base` is the offset of `buf` inside the vector it points
into, `pos` the number of bytes written so far (`GetStreamLength`). -/
structure StreamWriter where
  base : Nat
  capacity : Nat
  pos : Nat
deriving DecidableEq, Repr

/-- Number of bytes written so far. -/
def StreamWriter.GetStreamLength (w : StreamWriter) : Nat :=
  w.pos

/-- Overwrite the bytes of `data` from offset `off` on with `bs`. -/
def writeAt (data : List Nat) (off : Nat) (bs : List Nat) : List Nat :=
  data.take off ++ bs ++ data.drop (off + bs.length)

/-- Modelled from the spec: a write that does not fit the remaining capacity
fails (`none`); otherwise the bytes land at the current position. -/
def StreamWriter.Write (w : StreamWriter) (data : List Nat) (bs : List Nat) :
    Option (StreamWriter × List Nat) :=
  if w.pos + bs.length ≤ w.capacity then
    some ({ w with pos := w.pos + bs.length }, writeAt data (w.base + w.pos) bs)
  else
    none

/-- Modelled from the spec: variadic `AutoEncode(writer, args...)` encodes
its arguments in order and fails as soon as one write fails. -/
def AutoEncode {A : Type} (S : Serializer A) (w : StreamWriter) (data : List Nat) :
    List (Field A) → Option (StreamWriter × List Nat)
  | [] => some (w, data)
  | f :: fs =>
    match w.Write data (S.enc f) with
    | none => none
    | some (w1, data1) => AutoEncode S w1 data1 fs

/-! ## Routing -/

/-- The pack `(src_sid, dest_sid, msg_id, args...)` of lines 67 and 72. -/
def netFields {A : Type} (src_sid dest_sid : Int) (msg_id : Nat) (args : List A) :
    List (Field A) :=
  Field.i32 src_sid :: Field.i32 dest_sid :: Field.u16 msg_id :: args.map Field.arg

/-- The member `SendInsideServiceMsg` (lines 51-60): the list of
`SendMsg(sid, msg)` calls it makes. -/
def SendInsideServiceMsg {A : Type} (NDEBUG : Bool) (src_sid dest_sid : Int) (msg_id : Nat)
    (args : List A) : Outcome (List (Int × Message A)) :=
  if !NDEBUG && !(decide (dest_sid ≥ 0) && decide (dest_sid ≤ kMaxServiceId)) then
    Outcome.abort
  else
    Outcome.ret [(dest_sid,
      { src_sid := src_sid, dest_sid := dest_sid, msg_id := msg_id, payload := Payload.args args })]

/-- The member `SendNetServiceMsg` (lines 63-93): the list of
`SendMsg(sid, msg)` calls it makes. It takes the dispatcher like every
member function does. -/
def SendNetServiceMsg {A : Type} (S : Serializer A) (NDEBUG : Bool) (_d : ServiceDispatcher)
    (src_sid dest_sid : Int) (msg_id : Nat) (args : List A) :
    Outcome (List (Int × Message A)) :=
  let msg_size : Nat := 0
  let total_streang_length :=
    AutoGetSize S (Field.u16 msg_size :: netFields src_sid dest_sid msg_id args)
  let data := List.replicate total_streang_length 0
  let writer : StreamWriter := { base := 2, capacity := total_streang_length - 2, pos := 0 }
  match AutoEncode S writer data (netFields src_sid dest_sid msg_id args) with
  | none => if NDEBUG then Outcome.ret [] else Outcome.abort
  | some (writer, data) =>
    let msg_size := writer.GetStreamLength % 65536
    let msg_size_writer : StreamWriter := { base := 0, capacity := 2, pos := 0 }
    match AutoEncode S msg_size_writer data [Field.u16 msg_size] with
    | none => if NDEBUG then Outcome.ret [] else Outcome.abort
    | some (_, data) =>
      Outcome.ret [(0,
        { src_sid := src_sid, dest_sid := 0
          msg_id := S.kProxyServiceMsgId_SendToRemoteService
          payload := Payload.frame dest_sid data })]

/-- The member `SendServiceMsg` (lines 96-109). With the assertion
compiled out, a `dest_sid` outside the array is an out-of-bounds read. -/
def SendServiceMsg {A : Type} (S : Serializer A) (NDEBUG : Bool) (d : ServiceDispatcher)
    (src_sid dest_sid : Int) (msg_id : Nat) (args : List A) :
    Outcome (List (Int × Message A)) :=
  if !(decide (dest_sid ≥ 0) && decide (dest_sid ≤ kMaxServiceId)) then
    if NDEBUG then Outcome.undefined else Outcome.abort
  else if (d._services dest_sid.toNat).isSome then
    SendInsideServiceMsg NDEBUG src_sid dest_sid msg_id args
  else
    SendNetServiceMsg S NDEBUG d src_sid dest_sid msg_id args

/-- The messages handed to `SendMsg` in an outcome; none when the call did
not return. -/
def Outcome.sent {A : Type} : Outcome (List (Int × Message A)) → List (Int × Message A)
  | Outcome.ret l => l
  | _ => []

/-- The frames (byte buffers) among the messages handed to `SendMsg`. -/
def frames {A : Type} (l : List (Int × Message A)) : List (List Nat) :=
  l.filterMap fun p =>
    match p.2.payload with
    | Payload.frame _ data => some data
    | Payload.args _ => none

/-- What the size probe reports for the caller arguments. -/
def argsProbed {A : Type} (S : Serializer A) (args : List A) : Nat :=
  (args.map S.sizeArg).sum

/-- The bytes the encoder writes for the caller arguments, in order. -/
def argsEncoded {A : Type} (S : Serializer A) (args : List A) : List Nat :=
  (args.map S.encArg).flatten

/-- The bytes the encoder writes for a whole pack, in order. -/
def fieldsEncoded {A : Type} (S : Serializer A) (fs : List (Field A)) : List Nat :=
  (fs.map S.enc).flatten

/-- The encoding step of lines 67-72: the pack written through a writer
placed after the size field of a zeroed buffer of the probed size. -/
def netEncode {A : Type} (S : Serializer A) (src_sid dest_sid : Int) (msg_id : Nat)
    (args : List A) : Option (StreamWriter × List Nat) :=
  AutoEncode S
    { base := 2
      capacity := AutoGetSize S (Field.u16 0 :: netFields src_sid dest_sid msg_id args) - 2
      pos := 0 }
    (List.replicate (AutoGetSize S (Field.u16 0 :: netFields src_sid dest_sid msg_id args)) 0)
    (netFields src_sid dest_sid msg_id args)

/-! ## A concrete serializer -/

/-- A caller argument seen through the serializer: the size its probe
reports and the bytes its encoder writes. -/
structure Blob where
  probe : Nat
  bytes : List Nat
deriving DecidableEq, Repr

/-- A blob of `n` zero bytes whose probe reports `n`. -/
def Blob.zeros (n : Nat) : Blob :=
  { probe := n, bytes := List.replicate n 0 }

/-- Little-endian bytes of a `uint16_t`. -/
def leU16 (v : Nat) : List Nat :=
  [v % 256, v / 256 % 256]

/-- Little-endian bytes of an `int32_t` (two's complement). -/
def leI32 (v : Int) : List Nat :=
  let n := (v % 4294967296).toNat
  [n % 256, n / 256 % 256, n / 65536 % 256, n / 16777216 % 256]

/-- Value of the first two bytes read as a little-endian `uint16_t`. -/
def leDecU16 (bs : List Nat) : Nat :=
  bs.getD 0 0 + 256 * bs.getD 1 0

/-- A fixed-width little-endian serializer over `Blob` arguments, with 1 as
the forward-to-remote message kind. -/
def leSerializer : Serializer Blob :=
  { encU16 := leU16
    decU16 := leDecU16
    encI32 := leI32
    sizeArg := Blob.probe
    encArg := Blob.bytes
    kProxyServiceMsgId_SendToRemoteService := 1
    encU16_length := fun _ => rfl
    encI32_length := fun _ => rfl
    decU16_encU16 := fun v h => by
      simp only [leU16, leDecU16, List.getD_cons_zero, List.getD_cons_succ]
      omega }

/-- A dispatcher that has been started with nothing registered. -/
def ServiceDispatcher.started : ServiceDispatcher :=
  { ServiceDispatcher.empty with _running := true }

/-! ## Registration: one call -/

theorem RegistService_reject_eq (NDEBUG : Bool) (d : ServiceDispatcher) (newT : Service)
    (sid : Int) (hassert : NDEBUG = true ∨ d._running = false)
    (hbad : sid < 1 ∨ sid > kMaxServiceId ∨ (d._services sid.toNat).isSome) :
    RegistService NDEBUG d newT sid = Outcome.ret (d, none) := by
  unfold RegistService
  have h1 : (!NDEBUG && d._running) = false := by
    rcases hassert with h | h <;> simp [h]
  rw [h1]
  simp only [Bool.false_eq_true, if_false]
  rw [if_pos hbad]

theorem RegistService_accept_eq (NDEBUG : Bool) (d : ServiceDispatcher) (newT : Service)
    (sid : Int) (hassert : NDEBUG = true ∨ d._running = false)
    (h1 : 1 ≤ sid) (h2 : sid ≤ kMaxServiceId) (h3 : d._services sid.toNat = none) :
    ∃ d1, RegistService NDEBUG d newT sid = Outcome.ret (d1, some (newT.SetServiceId sid)) ∧
      d1._services = Function.update d._services sid.toNat (some (newT.SetServiceId sid)) ∧
      d1._max_sid = (if sid > d._max_sid then sid else d._max_sid) ∧
      d1._local_sid = d._local_sid ++ [sid] ∧
      d1._running = d._running ∧
      d1._cycle_timers =
        (if newT.cycle_period > 0 then
          d._cycle_timers ++ [CycleTimer.new sid newT.cycle_period]
        else d._cycle_timers) := by
  unfold RegistService
  have hr : (!NDEBUG && d._running) = false := by
    rcases hassert with h | h <;> simp [h]
  have hbad : ¬ (sid < 1 ∨ sid > kMaxServiceId ∨ (d._services sid.toNat).isSome = true) := by
    simp [h3]; omega
  rw [hr]
  simp only [Bool.false_eq_true, if_false]
  rw [if_neg hbad]
  refine ⟨_, rfl, ?_⟩
  simp only [Service.GetCyclePeriod, Service.SetServiceId]
  by_cases hp : newT.cycle_period > 0
  · simp [hp]
  · simp [hp]

theorem RegistService_abort_eq (d : ServiceDispatcher) (newT : Service) (sid : Int)
    (hrun : d._running = true) :
    RegistService false d newT sid = Outcome.abort := by
  simp [RegistService, hrun]

/-- A call that returned passed the assertion. -/
theorem RegistService_ret_assert (NDEBUG : Bool) (d : ServiceDispatcher) (newT : Service)
    (sid : Int) (r : ServiceDispatcher × Option Service)
    (h : RegistService NDEBUG d newT sid = Outcome.ret r) :
    NDEBUG = true ∨ d._running = false := by
  cases hN : NDEBUG
  · right
    cases hr : d._running
    · rfl
    · rw [hN, RegistService_abort_eq d newT sid hr] at h
      cases h
  · left; rfl

/-- Every call that returns either rejected (state untouched, null result)
or accepted a valid id whose slot was empty. -/
theorem RegistService_cases (NDEBUG : Bool) (d : ServiceDispatcher) (newT : Service)
    (sid : Int) (d1 : ServiceDispatcher) (p : Option Service)
    (h : RegistService NDEBUG d newT sid = Outcome.ret (d1, p)) :
    (d1 = d ∧ p = none ∧ (sid < 1 ∨ sid > kMaxServiceId ∨ (d._services sid.toNat).isSome)) ∨
    (p = some (newT.SetServiceId sid) ∧ 1 ≤ sid ∧ sid ≤ kMaxServiceId ∧
      d._services sid.toNat = none ∧
      d1._services = Function.update d._services sid.toNat (some (newT.SetServiceId sid)) ∧
      d1._max_sid = (if sid > d._max_sid then sid else d._max_sid) ∧
      d1._local_sid = d._local_sid ++ [sid] ∧
      d1._running = d._running ∧
      d1._cycle_timers =
        (if newT.cycle_period > 0 then
          d._cycle_timers ++ [CycleTimer.new sid newT.cycle_period]
        else d._cycle_timers)) := by
  have hassert := RegistService_ret_assert NDEBUG d newT sid _ h
  by_cases hbad : sid < 1 ∨ sid > kMaxServiceId ∨ (d._services sid.toNat).isSome
  · rw [RegistService_reject_eq NDEBUG d newT sid hassert hbad] at h
    injection h with h
    injection h with ha hb
    exact Or.inl ⟨ha.symm, hb.symm, hbad⟩
  · have h1 : 1 ≤ sid := by omega
    have h2 : sid ≤ kMaxServiceId := by omega
    have h3 : d._services sid.toNat = none := by
      cases hs : d._services sid.toNat with
      | none => rfl
      | some s => exact absurd (Or.inr (Or.inr (by simp [hs]))) hbad
    obtain ⟨d2, he, hrest⟩ := RegistService_accept_eq NDEBUG d newT sid hassert h1 h2 h3
    rw [he] at h
    injection h with h
    injection h with ha hb
    subst ha
    exact Or.inr ⟨hb.symm, h1, h2, h3, hrest⟩

/-! ## Registration: the invariant -/

theorem RegistryInv_empty : RegistryInv ServiceDispatcher.empty := by
  refine ⟨rfl, List.nodup_nil, ?_, ?_, ?_, List.nodup_nil, ?_, ?_, ?_, Or.inr ⟨rfl, rfl⟩⟩ <;>
    simp [ServiceDispatcher.empty]

theorem RegistryInv_step (NDEBUG : Bool) (d : ServiceDispatcher) (newT : Service) (sid : Int)
    (d1 : ServiceDispatcher) (p : Option Service) (hinv : RegistryInv d)
    (h : RegistService NDEBUG d newT sid = Outcome.ret (d1, p)) : RegistryInv d1 := by
  rcases RegistService_cases NDEBUG d newT sid d1 p h with
    ⟨hd, _, _⟩ | ⟨_, h1, h2, h3, hsv, hmax, hloc, hrun, htim⟩
  · rw [hd]; exact hinv
  · have hk : kMaxServiceId = 1024 := rfl
    have hnotmem : sid ∉ d._local_sid := by
      intro hm
      have := ((hinv.local_iff sid).1 hm).2.2
      rw [h3] at this
      cases this
    have hfresh : ∀ t ∈ d._cycle_timers, t.sid ≠ sid := by
      intro t ht he
      obtain ⟨s, hs, _⟩ := hinv.timer_owner t ht
      rw [he, h3] at hs
      cases hs
    have hsn : ((sid.toNat : Nat) : Int) = sid := by omega
    refine ⟨?_, ?_, ?_, ?_, ?_, ?_, ?_, ?_, ?_, ?_⟩
    · rw [hrun]; exact hinv.not_running
    · rw [hloc]
      exact List.Nodup.append hinv.nodup (List.nodup_singleton sid)
        (by simpa using hnotmem)
    · intro i
      rw [hloc, hsv, List.mem_append, List.mem_singleton, hinv.local_iff i]
      by_cases hi : i = sid
      · subst hi
        simp [h1, h2]
      · constructor
        · rintro (⟨a, b, c⟩ | e)
          · refine ⟨a, b, ?_⟩
            rw [Function.update_noteq (by omega)]
            exact c
          · exact absurd e hi
        · rintro ⟨a, b, c⟩
          rw [Function.update_noteq (by omega)] at c
          exact Or.inl ⟨a, b, c⟩
    · intro n hn
      rw [hsv] at hn
      by_cases hnn : n = sid.toNat
      · subst hnn
        omega
      · rw [Function.update_noteq hnn] at hn
        exact hinv.slot_range n hn
    · intro n s hs
      rw [hsv] at hs
      by_cases hnn : n = sid.toNat
      · subst hnn
        rw [Function.update_same] at hs
        injection hs with hs
        rw [← hs, hsn]
        rfl
      · rw [Function.update_noteq hnn] at hs
        exact hinv.slot_sid n s hs
    · rw [htim]
      split
      · rw [List.map_append, List.map_singleton]
        refine List.Nodup.append hinv.timer_nodup (List.nodup_singleton _) ?_
        simp only [List.disjoint_singleton, List.mem_map, not_exists, not_and]
        intro t ht
        exact hfresh t ht
      · exact hinv.timer_nodup
    · intro t ht
      have hold : t ∈ d._cycle_timers → ∃ s, d1._services t.sid.toNat = some s ∧
          1 ≤ t.sid ∧ t.sid ≤ kMaxServiceId ∧ t.msg.period = s.cycle_period ∧
          0 < s.cycle_period := by
        intro hto
        obtain ⟨s, hs, a, b, c⟩ := hinv.timer_owner t hto
        have hne := hfresh t hto
        refine ⟨s, ?_, a, b, c⟩
        rw [hsv, Function.update_noteq (by omega)]
        exact hs
      rw [htim] at ht
      split at ht
      · rename_i hp
        rcases List.mem_append.1 ht with hto | htn
        · exact hold hto
        · rw [List.mem_singleton] at htn
          subst htn
          refine ⟨newT.SetServiceId sid, ?_, h1, h2, rfl, hp⟩
          rw [hsv]
          exact Function.update_same _ _ _
      · exact hold ht
    · intro n s hs hp
      rw [hsv] at hs
      by_cases hnn : n = sid.toNat
      · subst hnn
        rw [Function.update_same] at hs
        injection hs with hs
        subst hs
        have hp2 : newT.cycle_period > 0 := hp
        rw [htim, if_pos hp2]
        exact ⟨CycleTimer.new sid newT.cycle_period, by simp, hsn.symm⟩
      · rw [Function.update_noteq hnn] at hs
        obtain ⟨t, ht, hts⟩ := hinv.timer_exists n s hs hp
        refine ⟨t, ?_, hts⟩
        rw [htim]
        split
        · exact List.mem_append_left _ ht
        · exact ht
    · intro x hx
      rw [hloc] at hx
      rw [hmax]
      rcases List.mem_append.1 hx with hx | hx
      · have := hinv.max_bound x hx
        split <;> omega
      · rw [List.mem_singleton] at hx
        split <;> omega
    · left
      rw [hmax, hloc]
      split
      · simp
      · rename_i hle
        rcases hinv.max_mem with hm | ⟨hz, _⟩
        · exact List.mem_append_left _ hm
        · omega

/-! ## Registration: sequences of calls -/

theorem registSeq_cons_ret (NDEBUG : Bool) (d d1 : ServiceDispatcher) (newT : Service)
    (sid : Int) (p : Option Service) (rest : List (Service × Int))
    (h : RegistService NDEBUG d newT sid = Outcome.ret (d1, p)) :
    registSeq NDEBUG d ((newT, sid) :: rest) = registSeq NDEBUG d1 rest := by
  simp only [registSeq, h]

/-- A sequence that returned: its first call returned too. -/
theorem registSeq_cons_inv (NDEBUG : Bool) (d d2 : ServiceDispatcher) (newT : Service)
    (sid : Int) (rest : List (Service × Int))
    (h : registSeq NDEBUG d ((newT, sid) :: rest) = Outcome.ret d2) :
    ∃ d1 p, RegistService NDEBUG d newT sid = Outcome.ret (d1, p) ∧
      registSeq NDEBUG d1 rest = Outcome.ret d2 := by
  cases hr : RegistService NDEBUG d newT sid with
  | abort => simp [registSeq, hr] at h
  | undefined => simp [registSeq, hr] at h
  | ret r =>
    obtain ⟨d1, p⟩ := r
    rw [registSeq_cons_ret NDEBUG d d1 newT sid p rest hr] at h
    exact ⟨d1, p, rfl, h⟩

/-- From a state where the assertion passes, every call returns. -/
theorem RegistService_returns (NDEBUG : Bool) (d : ServiceDispatcher) (newT : Service)
    (sid : Int) (hassert : NDEBUG = true ∨ d._running = false) :
    ∃ d1 p, RegistService NDEBUG d newT sid = Outcome.ret (d1, p) := by
  by_cases hbad : sid < 1 ∨ sid > kMaxServiceId ∨ (d._services sid.toNat).isSome
  · exact ⟨d, none, RegistService_reject_eq NDEBUG d newT sid hassert hbad⟩
  · have h3 : d._services sid.toNat = none := by
      cases hs : d._services sid.toNat with
      | none => rfl
      | some s => exact absurd (Or.inr (Or.inr (by simp [hs]))) hbad
    obtain ⟨d1, he, _⟩ :=
      RegistService_accept_eq NDEBUG d newT sid hassert (by omega) (by omega) h3
    exact ⟨d1, _, he⟩

theorem registSeq_inv (NDEBUG : Bool) (calls : List (Service × Int)) :
    ∀ d : ServiceDispatcher, RegistryInv d →
      ∃ d2, registSeq NDEBUG d calls = Outcome.ret d2 ∧ RegistryInv d2 := by
  induction calls with
  | nil => intro d hd; exact ⟨d, rfl, hd⟩
  | cons c rest ih =>
    intro d hd
    obtain ⟨newT, sid⟩ := c
    obtain ⟨d1, p, h⟩ := RegistService_returns NDEBUG d newT sid (Or.inr hd.not_running)
    obtain ⟨d2, h2, hinv2⟩ := ih d1 (RegistryInv_step NDEBUG d newT sid d1 p hd h)
    exact ⟨d2, by rw [registSeq_cons_ret NDEBUG d d1 newT sid p rest h]; exact h2, hinv2⟩

/-- One call keeps every occupied slot and the running flag. -/
theorem RegistService_stable (NDEBUG : Bool) (d d1 : ServiceDispatcher) (newT : Service)
    (sid : Int) (p : Option Service)
    (h : RegistService NDEBUG d newT sid = Outcome.ret (d1, p)) :
    d1._running = d._running ∧ d1._services 0 = d._services 0 ∧
      ∀ a s, d._services a = some s → d1._services a = some s := by
  rcases RegistService_cases NDEBUG d newT sid d1 p h with
    ⟨hd, _, _⟩ | ⟨_, h1, _, h3, hsv, _, _, hrun, _⟩
  · subst hd; exact ⟨rfl, rfl, fun _ _ hs => hs⟩
  · refine ⟨hrun, ?_, ?_⟩
    · rw [hsv, Function.update_noteq (by omega)]
    · intro a s hs
      have hne : a ≠ sid.toNat := by
        intro he
        rw [he, h3] at hs
        cases hs
      rw [hsv, Function.update_noteq hne]
      exact hs

/-- A sequence of calls keeps every occupied slot and the running flag. -/
theorem registSeq_stable (NDEBUG : Bool) (calls : List (Service × Int)) :
    ∀ d d2 : ServiceDispatcher, registSeq NDEBUG d calls = Outcome.ret d2 →
      d2._running = d._running ∧ d2._services 0 = d._services 0 ∧
        ∀ a s, d._services a = some s → d2._services a = some s := by
  induction calls with
  | nil =>
    intro d d2 h
    simp only [registSeq] at h
    injection h with h
    subst h
    exact ⟨rfl, rfl, fun _ _ hs => hs⟩
  | cons c rest ih =>
    intro d d2 h
    obtain ⟨newT, sid⟩ := c
    obtain ⟨d1, p, h1, h2⟩ := registSeq_cons_inv NDEBUG d d2 newT sid rest h
    obtain ⟨a1, b1, c1⟩ := RegistService_stable NDEBUG d d1 newT sid p h1
    obtain ⟨a2, b2, c2⟩ := ih d1 d2 h2
    exact ⟨a2.trans a1, b2.trans b1, fun a s hs => c2 a s (c1 a s hs)⟩

/-- From a state where the assertion passes, every sequence returns. -/
theorem registSeq_returns (NDEBUG : Bool) (calls : List (Service × Int)) :
    ∀ d : ServiceDispatcher, (NDEBUG = true ∨ d._running = false) →
      ∃ d2, registSeq NDEBUG d calls = Outcome.ret d2 := by
  induction calls with
  | nil => intro d _; exact ⟨d, rfl⟩
  | cons c rest ih =>
    intro d hd
    obtain ⟨newT, sid⟩ := c
    obtain ⟨d1, p, h⟩ := RegistService_returns NDEBUG d newT sid hd
    have hrun := (RegistService_stable NDEBUG d d1 newT sid p h).1
    obtain ⟨d2, h2⟩ := ih d1 (by rw [hrun]; exact hd)
    exact ⟨d2, by rw [registSeq_cons_ret NDEBUG d d1 newT sid p rest h]; exact h2⟩

/-! ## Registration: the claims -/

/-- C1 (as amended): in every dispatcher state where `assert(!_running)`
passes (not started) or is compiled out, `RegistService(sid)` returns
`nullptr` and leaves the state alone whenever `sid < 1`, `sid > kMaxServiceId`
or slot `sid` is occupied; and after one successful `RegistService(sid)`,
`RegistService(sid)` after any further registrations returns `nullptr`. -/
theorem RegistService_failure (NDEBUG : Bool) (d : ServiceDispatcher) (newT : Service)
    (sid : Int) (hassert : NDEBUG = true ∨ d._running = false) :
    ((sid < 1 ∨ sid > kMaxServiceId ∨ (d._services sid.toNat).isSome) →
      RegistService NDEBUG d newT sid = Outcome.ret (d, none)) ∧
    (∀ (d1 : ServiceDispatcher) (s : Service) (calls : List (Service × Int))
        (d2 : ServiceDispatcher) (newT2 : Service),
      RegistService NDEBUG d newT sid = Outcome.ret (d1, some s) →
      registSeq NDEBUG d1 calls = Outcome.ret d2 →
      RegistService NDEBUG d2 newT2 sid = Outcome.ret (d2, none)) := by
  refine ⟨RegistService_reject_eq NDEBUG d newT sid hassert, ?_⟩
  intro d1 s calls d2 newT2 h1 h2
  rcases RegistService_cases NDEBUG d newT sid d1 (some s) h1 with
    ⟨_, hp, _⟩ | ⟨_, _, _, _, hsv, _, _, hrun, _⟩
  · cases hp
  · obtain ⟨hr2, _, hst⟩ := registSeq_stable NDEBUG calls d1 d2 h2
    have hslot : d1._services sid.toNat = some (newT.SetServiceId sid) := by
      rw [hsv]; exact Function.update_same _ _ _
    refine RegistService_reject_eq NDEBUG d2 newT2 sid ?_ (Or.inr (Or.inr ?_))
    · rw [hr2, hrun]; exact hassert
    · rw [hst _ _ hslot]; rfl

theorem RegistService_failure_witness :
    RegistService false ServiceDispatcher.empty ⟨0, 0⟩ 0 =
        Outcome.ret (ServiceDispatcher.empty, none) ∧
      RegistService false ServiceDispatcher.withFive ⟨7, 0⟩ 5 =
        Outcome.ret (ServiceDispatcher.withFive, none) :=
  ⟨(RegistService_failure false ServiceDispatcher.empty ⟨0, 0⟩ 0 (Or.inr rfl)).1
      (Or.inl (by decide)),
    (RegistService_failure false ServiceDispatcher.empty ⟨0, 0⟩ 5 (Or.inr rfl)).2
      ServiceDispatcher.withFive ⟨5, 0⟩ [] ServiceDispatcher.withFive ⟨7, 0⟩ rfl rfl⟩

/-- C1 as stated fails: on a started dispatcher, with assertions enabled,
`RegistService(0)` (an id below 1) is terminated by `assert(!_running)`; it
does not return `nullptr`. -/
theorem RegistService_failure_counterexample :
    (0 : Int) < 1 ∧
      RegistService false ServiceDispatcher.started ⟨0, 0⟩ 0 = Outcome.abort ∧
      returnedPtr (RegistService false ServiceDispatcher.started ⟨0, 0⟩ 0) ≠ some none := by
  refine ⟨by decide, rfl, by decide⟩

/-- C2 (as amended): on a started dispatcher and a valid, unregistered id,
`RegistService` never returns `nullptr`: with assertions enabled it is
terminated by `assert(!_running)`; with assertions compiled out it registers
the service exactly as on a not-started dispatcher: it returns the new
instance, writes the slot, raises `_max_sid` to the id if larger, appends the
id, appends the timer when the period is positive, and the resulting state is
the one the same call yields on the not-started dispatcher, up to the
running flag. -/
theorem RegistService_after_start (d : ServiceDispatcher) (newT : Service) (sid : Int)
    (hrun : d._running = true) (h1 : 1 ≤ sid) (h2 : sid ≤ kMaxServiceId)
    (h3 : d._services sid.toNat = none) :
    RegistService false d newT sid = Outcome.abort ∧
      ∃ d1, RegistService true d newT sid = Outcome.ret (d1, some (newT.SetServiceId sid)) ∧
        d1._services = Function.update d._services sid.toNat (some (newT.SetServiceId sid)) ∧
        d1._max_sid = (if sid > d._max_sid then sid else d._max_sid) ∧
        d1._local_sid = d._local_sid ++ [sid] ∧
        d1._running = true ∧
        d1._cycle_timers =
          (if (newT.SetServiceId sid).GetCyclePeriod > 0 then
            d._cycle_timers ++
              [CycleTimer.new sid (newT.SetServiceId sid).GetCyclePeriod]
          else d._cycle_timers) ∧
        ∀ N : Bool, RegistService N { d with _running := false } newT sid =
          Outcome.ret ({ d1 with _running := false }, some (newT.SetServiceId sid)) := by
  refine ⟨RegistService_abort_eq d newT sid hrun, ?_⟩
  obtain ⟨d1, he, hsv, hmax, hloc, hr, htim⟩ :=
    RegistService_accept_eq true d newT sid (Or.inl rfl) h1 h2 h3
  refine ⟨d1, he, hsv, hmax, hloc, hr.trans hrun, htim, ?_⟩
  intro N
  obtain ⟨d2, he2, hsv2, hmax2, hloc2, hr2, htim2⟩ :=
    RegistService_accept_eq N { d with _running := false } newT sid (Or.inr rfl) h1 h2 h3
  rw [he2]
  have hd : d2 = { d1 with _running := false } := by
    cases d2
    cases d1
    simp only [ServiceDispatcher.mk.injEq] at *
    exact ⟨hsv2.trans hsv.symm, hmax2.trans hmax.symm, hloc2.trans hloc.symm, hr2,
      htim2.trans htim.symm⟩
  rw [hd]

theorem RegistService_after_start_witness :
    RegistService false ServiceDispatcher.started ⟨0, 100⟩ 3 = Outcome.abort ∧
      ∃ d1, RegistService true ServiceDispatcher.started ⟨0, 100⟩ 3 =
          Outcome.ret (d1, some (Service.SetServiceId ⟨0, 100⟩ 3)) ∧
        d1._services = Function.update ServiceDispatcher.started._services (3 : Int).toNat
          (some (Service.SetServiceId ⟨0, 100⟩ 3)) ∧
        d1._max_sid =
          (if (3 : Int) > ServiceDispatcher.started._max_sid then 3
          else ServiceDispatcher.started._max_sid) ∧
        d1._local_sid = ServiceDispatcher.started._local_sid ++ [3] ∧
        d1._running = true ∧
        d1._cycle_timers =
          (if (Service.SetServiceId ⟨0, 100⟩ 3).GetCyclePeriod > 0 then
            ServiceDispatcher.started._cycle_timers ++
              [CycleTimer.new 3 (Service.SetServiceId ⟨0, 100⟩ 3).GetCyclePeriod]
          else ServiceDispatcher.started._cycle_timers) ∧
        ∀ N : Bool,
          RegistService N { ServiceDispatcher.started with _running := false } ⟨0, 100⟩ 3 =
            Outcome.ret ({ d1 with _running := false },
              some (Service.SetServiceId ⟨0, 100⟩ 3)) :=
  RegistService_after_start ServiceDispatcher.started ⟨0, 100⟩ 3 rfl (by decide) (by decide) rfl

/-- C2 as stated fails: on a started dispatcher `RegistService(1)` (valid,
unregistered) is terminated by the assertion when assertions are enabled,
and returns the new instance, not `nullptr`, when they are compiled out. -/
theorem RegistService_after_start_counterexample :
    ServiceDispatcher.started._running = true ∧
      ServiceDispatcher.started._services 1 = none ∧
      RegistService false ServiceDispatcher.started ⟨0, 0⟩ 1 = Outcome.abort ∧
      returnedPtr (RegistService true ServiceDispatcher.started ⟨0, 0⟩ 1) =
        some (some ⟨1, 0⟩) := by
  refine ⟨rfl, rfl, rfl, by decide⟩

/-- C3: on a not-started dispatcher, for `1 ≤ sid ≤ kMaxServiceId` with an
empty slot, `RegistService(sid)` returns the new instance `s`; `s` has id
`sid`, slot `sid` holds `s`, `sid` is appended to the local-id list, and the
timer list gains `CycleTimer(sid, period)` at its end if the declared period
is positive and is unchanged otherwise. -/
theorem RegistService_success (NDEBUG : Bool) (d : ServiceDispatcher) (newT : Service)
    (sid : Int) (hrun : d._running = false) (h1 : 1 ≤ sid) (h2 : sid ≤ kMaxServiceId)
    (h3 : d._services sid.toNat = none) :
    ∃ d1 s, RegistService NDEBUG d newT sid = Outcome.ret (d1, some s) ∧
      s.sid = sid ∧
      d1._services sid.toNat = some s ∧
      d1._local_sid = d._local_sid ++ [sid] ∧
      (s.GetCyclePeriod > 0 →
        d1._cycle_timers = d._cycle_timers ++ [CycleTimer.new sid s.GetCyclePeriod]) ∧
      (¬ s.GetCyclePeriod > 0 → d1._cycle_timers = d._cycle_timers) := by
  obtain ⟨d1, he, hsv, _, hloc, _, htim⟩ :=
    RegistService_accept_eq NDEBUG d newT sid (Or.inr hrun) h1 h2 h3
  refine ⟨d1, newT.SetServiceId sid, he, rfl, ?_, hloc, ?_, ?_⟩
  · rw [hsv]; exact Function.update_same _ _ _
  · intro hp
    have hp2 : newT.cycle_period > 0 := hp
    rw [htim, if_pos hp2]; rfl
  · intro hp
    have hp2 : ¬ newT.cycle_period > 0 := hp
    rw [htim, if_neg hp2]

theorem RegistService_success_witness :
    ∃ d1 s, RegistService false ServiceDispatcher.empty ⟨0, 100⟩ 3 = Outcome.ret (d1, some s) ∧
      s.sid = 3 ∧
      d1._services (3 : Int).toNat = some s ∧
      d1._local_sid = ServiceDispatcher.empty._local_sid ++ [3] ∧
      (s.GetCyclePeriod > 0 →
        d1._cycle_timers =
          ServiceDispatcher.empty._cycle_timers ++ [CycleTimer.new 3 s.GetCyclePeriod]) ∧
      (¬ s.GetCyclePeriod > 0 → d1._cycle_timers = ServiceDispatcher.empty._cycle_timers) :=
  RegistService_success false ServiceDispatcher.empty ⟨0, 100⟩ 3 rfl (by decide) (by decide) rfl

/-- C8: after every sequence of `RegistService` calls on the empty
dispatcher, the local-id list has no duplicates and holds exactly the ids in
`[1, kMaxServiceId]` whose slot is occupied, the instance in slot `a` carries
id `a`, slot 0 is empty, and every further sequence of calls (succeeding or
failing) leaves each occupied slot holding the same instance. -/
theorem registry_invariant (NDEBUG : Bool) (calls : List (Service × Int)) :
    ∃ d, registSeq NDEBUG ServiceDispatcher.empty calls = Outcome.ret d ∧
      d._local_sid.Nodup ∧
      (∀ i : Int, i ∈ d._local_sid ↔
        1 ≤ i ∧ i ≤ kMaxServiceId ∧ (d._services i.toNat).isSome) ∧
      (∀ (a : Nat) (s : Service), d._services a = some s → s.sid = a) ∧
      d._services 0 = none ∧
      ∀ more : List (Service × Int), ∃ d2, registSeq NDEBUG d more = Outcome.ret d2 ∧
        d2._services 0 = none ∧
        ∀ (a : Nat) (s : Service), d._services a = some s → d2._services a = some s := by
  obtain ⟨d, hd, hinv⟩ := registSeq_inv NDEBUG calls ServiceDispatcher.empty RegistryInv_empty
  have h0 : d._services 0 = none := by
    cases hs : d._services 0 with
    | none => rfl
    | some s =>
      have := (hinv.slot_range 0 (by simp [hs])).1
      omega
  refine ⟨d, hd, hinv.nodup, hinv.local_iff, hinv.slot_sid, h0, ?_⟩
  intro more
  obtain ⟨d2, hd2⟩ := registSeq_returns NDEBUG more d (Or.inr hinv.not_running)
  obtain ⟨_, hz, hst⟩ := registSeq_stable NDEBUG more d d2 hd2
  exact ⟨d2, hd2, hz.trans h0, hst⟩

theorem registry_invariant_witness :
    ∃ d, registSeq false ServiceDispatcher.empty [(⟨0, 0⟩, 5), (⟨0, 7⟩, 5), (⟨0, 0⟩, 0)] =
        Outcome.ret d ∧
      d._local_sid.Nodup ∧
      (∀ i : Int, i ∈ d._local_sid ↔
        1 ≤ i ∧ i ≤ kMaxServiceId ∧ (d._services i.toNat).isSome) ∧
      (∀ (a : Nat) (s : Service), d._services a = some s → s.sid = a) ∧
      d._services 0 = none ∧
      ∀ more : List (Service × Int), ∃ d2, registSeq false d more = Outcome.ret d2 ∧
        d2._services 0 = none ∧
        ∀ (a : Nat) (s : Service), d._services a = some s → d2._services a = some s :=
  registry_invariant false [(⟨0, 0⟩, 5), (⟨0, 7⟩, 5), (⟨0, 0⟩, 0)]

/-- C9 (as amended): after every sequence of `RegistService` calls on the
empty dispatcher, every timer is owned by a registered id and carries that
service's period, no two timers share an owner, and a registered service has
a timer if and only if its declared period is positive. -/
theorem timer_invariant (NDEBUG : Bool) (calls : List (Service × Int)) :
    ∃ d, registSeq NDEBUG ServiceDispatcher.empty calls = Outcome.ret d ∧
      (∀ t ∈ d._cycle_timers, d.registered t.sid ∧
        ∃ s, d._services t.sid.toNat = some s ∧ t.msg.period = s.GetCyclePeriod) ∧
      (d._cycle_timers.map CycleTimer.sid).Nodup ∧
      ∀ (a : Nat) (s : Service), d._services a = some s →
        ((∃ t ∈ d._cycle_timers, t.sid = a) ↔ 0 < s.GetCyclePeriod) := by
  obtain ⟨d, hd, hinv⟩ := registSeq_inv NDEBUG calls ServiceDispatcher.empty RegistryInv_empty
  refine ⟨d, hd, ?_, hinv.timer_nodup, ?_⟩
  · intro t ht
    obtain ⟨s, hs, h1, h2, hp, _⟩ := hinv.timer_owner t ht
    exact ⟨⟨by omega, h2, by simp [hs]⟩, s, hs, hp⟩
  · intro a s hs
    constructor
    · rintro ⟨t, ht, hta⟩
      obtain ⟨s2, hs2, _, _, _, hpos⟩ := hinv.timer_owner t ht
      have : t.sid.toNat = a := by omega
      rw [this, hs] at hs2
      injection hs2 with hs2
      subst hs2
      exact hpos
    · intro hp
      exact hinv.timer_exists a s hs hp

theorem timer_invariant_witness :
    ∃ d, registSeq false ServiceDispatcher.empty [(⟨0, 100⟩, 3), (⟨0, -1⟩, 4)] =
        Outcome.ret d ∧
      (∀ t ∈ d._cycle_timers, d.registered t.sid ∧
        ∃ s, d._services t.sid.toNat = some s ∧ t.msg.period = s.GetCyclePeriod) ∧
      (d._cycle_timers.map CycleTimer.sid).Nodup ∧
      ∀ (a : Nat) (s : Service), d._services a = some s →
        ((∃ t ∈ d._cycle_timers, t.sid = a) ↔ 0 < s.GetCyclePeriod) :=
  timer_invariant false [(⟨0, 100⟩, 3), (⟨0, -1⟩, 4)]

/-- C9 as stated fails: registering at id 1 a service whose declared period
is -1 (nonzero) leaves the timer list empty, so a registered service with a
nonzero period has no timer. -/
theorem timer_invariant_counterexample :
    (Outcome.toOption (registSeq false ServiceDispatcher.empty [(⟨0, -1⟩, 1)])).map
        (fun d => (d._services 1, d._cycle_timers)) = some (some ⟨1, -1⟩, []) ∧
      Service.GetCyclePeriod ⟨1, -1⟩ ≠ 0 := by
  refine ⟨rfl, by decide⟩

theorem writeAt_length (data : List Nat) (off : Nat) (bs : List Nat)
    (h : off + bs.length ≤ data.length) : (writeAt data off bs).length = data.length := by
  simp only [writeAt, List.length_append, List.length_take, List.length_drop]
  omega

theorem writeAt_nil (data : List Nat) (off : Nat) : writeAt data off [] = data := by
  simp [writeAt]

theorem writeAt_writeAt (data : List Nat) (off : Nat) (a b : List Nat)
    (h : off + a.length ≤ data.length) :
    writeAt (writeAt data off a) (off + a.length) b = writeAt data off (a ++ b) := by
  have hlen : (data.take off ++ a).length = off + a.length := by
    simp only [List.length_append, List.length_take]
    omega
  have h1 : (data.take off ++ a ++ data.drop (off + a.length)).take (off + a.length) =
      data.take off ++ a := by
    rw [← hlen]; exact List.take_left _ _
  have h2 : (data.take off ++ a ++ data.drop (off + a.length)).drop
      (off + a.length + b.length) = data.drop (off + (a ++ b).length) := by
    rw [← hlen, List.drop_append, List.drop_drop, hlen, List.length_append]
    congr 1
    omega
  simp only [writeAt]
  rw [h1, h2]
  simp [List.append_assoc]

/-- The encoder succeeds exactly when all the bytes of the pack fit the
remaining capacity, and then it has written them in order at the writer's
position. -/
theorem AutoEncode_eq {A : Type} (S : Serializer A) (fs : List (Field A)) :
    ∀ (w : StreamWriter) (data : List Nat), w.pos ≤ w.capacity →
      w.base + w.capacity ≤ data.length →
      AutoEncode S w data fs =
        if w.pos + (fieldsEncoded S fs).length ≤ w.capacity then
          some ({ w with pos := w.pos + (fieldsEncoded S fs).length },
            writeAt data (w.base + w.pos) (fieldsEncoded S fs))
        else none := by
  induction fs with
  | nil =>
    intro w data hpos _
    simp [AutoEncode, fieldsEncoded, writeAt_nil, hpos]
  | cons f fs ih =>
    intro w data _ hcap
    have hfe : fieldsEncoded S (f :: fs) = S.enc f ++ fieldsEncoded S fs := by
      simp [fieldsEncoded]
    rw [hfe, List.length_append]
    by_cases h1 : w.pos + (S.enc f).length ≤ w.capacity
    · have hlen : (writeAt data (w.base + w.pos) (S.enc f)).length = data.length :=
        writeAt_length _ _ _ (by omega)
      simp only [AutoEncode, StreamWriter.Write, if_pos h1]
      rw [ih _ _ (by simp only []; omega) (by simp only []; omega)]
      simp only []
      by_cases h2 : w.pos + ((S.enc f).length + (fieldsEncoded S fs).length) ≤ w.capacity
      · rw [if_pos (by omega), if_pos h2]
        have e := writeAt_writeAt data (w.base + w.pos) (S.enc f) (fieldsEncoded S fs)
          (by omega)
        rw [show w.base + (w.pos + (S.enc f).length) = w.base + w.pos + (S.enc f).length by
          omega, e]
        simp only [Nat.add_assoc]
      · rw [if_neg (by omega), if_neg h2]
    · simp only [AutoEncode, StreamWriter.Write, if_neg h1]
      rw [if_neg (by omega)]

/-! ## The remote path in closed form -/

theorem AutoGetSize_net {A : Type} (S : Serializer A) (v : Nat) (src_sid dest_sid : Int)
    (msg_id : Nat) (args : List A) :
    AutoGetSize S (Field.u16 v :: netFields src_sid dest_sid msg_id args) =
      12 + argsProbed S args := by
  have h : (List.map S.size (List.map Field.arg args)).sum = argsProbed S args := by
    simp only [argsProbed, List.map_map]
    rfl
  simp only [AutoGetSize, netFields, List.map_cons, List.sum_cons, Serializer.size, h]
  omega

theorem fieldsEncoded_net {A : Type} (S : Serializer A) (src_sid dest_sid : Int)
    (msg_id : Nat) (args : List A) :
    fieldsEncoded S (netFields src_sid dest_sid msg_id args) =
      S.encI32 src_sid ++ (S.encI32 dest_sid ++ (S.encU16 msg_id ++ argsEncoded S args)) := by
  have h : (List.map S.enc (List.map Field.arg args)).flatten = argsEncoded S args := by
    simp only [argsEncoded, List.map_map]
    rfl
  simp only [fieldsEncoded, netFields, List.map_cons, List.flatten_cons, Serializer.enc, h]

theorem fieldsEncoded_net_length {A : Type} (S : Serializer A) (src_sid dest_sid : Int)
    (msg_id : Nat) (args : List A) :
    (fieldsEncoded S (netFields src_sid dest_sid msg_id args)).length =
      10 + (argsEncoded S args).length := by
  rw [fieldsEncoded_net]
  simp only [List.length_append, S.encI32_length, S.encU16_length]
  omega

/-- The frame buffer: zeros, then the pack written from offset 2, then the
size field written at offset 0. -/
theorem frame_bytes (total : Nat) (payload hdr : List Nat) (hh : hdr.length = 2)
    (hfit : 2 + payload.length ≤ total) :
    writeAt (writeAt (List.replicate total 0) 2 payload) 0 hdr =
      hdr ++ payload ++ List.replicate (total - 2 - payload.length) 0 := by
  simp only [writeAt, List.take_zero, List.nil_append, Nat.zero_add, hh]
  have h1 : (List.take 2 (List.replicate total 0)).length = 2 := by
    simp only [List.length_take, List.length_replicate]
    omega
  rw [List.append_assoc (List.take 2 (List.replicate total 0)), List.drop_left' h1,
    List.drop_replicate, List.append_assoc]
  congr 2
  congr 1
  omega

/-- Closed form of `SendNetServiceMsg`: when the bytes written for the
caller arguments fit the probed size, one message goes to service 0 and its
buffer is the size field, the encoded pack, and zero padding up to the probed
size; otherwise the encoder fails and nothing is sent. -/
theorem SendNetServiceMsg_eq {A : Type} (S : Serializer A) (NDEBUG : Bool)
    (d : ServiceDispatcher) (src_sid dest_sid : Int) (msg_id : Nat) (args : List A) :
    SendNetServiceMsg S NDEBUG d src_sid dest_sid msg_id args =
      if (argsEncoded S args).length ≤ argsProbed S args then
        Outcome.ret [(0,
          { src_sid := src_sid, dest_sid := 0
            msg_id := S.kProxyServiceMsgId_SendToRemoteService
            payload := Payload.frame dest_sid
              (S.encU16 ((10 + (argsEncoded S args).length) % 65536) ++
                (S.encI32 src_sid ++ (S.encI32 dest_sid ++
                  (S.encU16 msg_id ++ argsEncoded S args))) ++
                List.replicate (argsProbed S args - (argsEncoded S args).length) 0) })]
      else if NDEBUG then Outcome.ret [] else Outcome.abort := by
  unfold SendNetServiceMsg
  simp only [AutoGetSize_net]
  rw [AutoEncode_eq S _ _ _ (Nat.zero_le _) (by simp only [List.length_replicate]; omega)]
  simp only [fieldsEncoded_net_length, Nat.zero_add, Nat.add_zero]
  by_cases hfit : (argsEncoded S args).length ≤ argsProbed S args
  · have hc : 10 + (argsEncoded S args).length ≤ 12 + argsProbed S args - 2 := by omega
    rw [if_pos hc, if_pos hfit]
    simp only [StreamWriter.GetStreamLength]
    rw [AutoEncode_eq S _ _ _ (Nat.zero_le _)
      (by
        rw [writeAt_length _ _ _
          (by simp only [List.length_replicate, fieldsEncoded_net_length]; omega)]
        simp only [List.length_replicate]; omega)]
    have hu : ∀ x, fieldsEncoded S [(Field.u16 x : Field A)] = S.encU16 x := by
      intro x
      simp [fieldsEncoded, Serializer.enc]
    simp only [hu, S.encU16_length, Nat.zero_add, Nat.add_zero, le_refl, if_true]
    rw [frame_bytes _ _ _ (S.encU16_length _)
      (by rw [fieldsEncoded_net_length]; omega)]
    rw [fieldsEncoded_net_length, fieldsEncoded_net]
    have e : 12 + argsProbed S args - 2 - (10 + (argsEncoded S args).length) =
        argsProbed S args - (argsEncoded S args).length := by omega
    rw [e]
  · have hc : ¬ 10 + (argsEncoded S args).length ≤ 12 + argsProbed S args - 2 := by omega
    rw [if_neg hc, if_neg hfit]

/-! ## Routing: the claims -/

theorem SendServiceMsg_local {A : Type} (S : Serializer A) (NDEBUG : Bool)
    (d : ServiceDispatcher) (src_sid dest_sid : Int) (msg_id : Nat) (args : List A)
    (h0 : 0 ≤ dest_sid) (h1 : dest_sid ≤ kMaxServiceId)
    (hreg : (d._services dest_sid.toNat).isSome) :
    SendServiceMsg S NDEBUG d src_sid dest_sid msg_id args =
      Outcome.ret [(dest_sid,
        { src_sid := src_sid, dest_sid := dest_sid, msg_id := msg_id
          payload := Payload.args args })] := by
  have hr : (decide (dest_sid ≥ 0) && decide (dest_sid ≤ kMaxServiceId)) = true := by
    simp [h0, h1]
  simp [SendServiceMsg, SendInsideServiceMsg, hr, hreg]

theorem SendServiceMsg_remote {A : Type} (S : Serializer A) (NDEBUG : Bool)
    (d : ServiceDispatcher) (src_sid dest_sid : Int) (msg_id : Nat) (args : List A)
    (h0 : 0 ≤ dest_sid) (h1 : dest_sid ≤ kMaxServiceId)
    (hreg : d._services dest_sid.toNat = none) :
    SendServiceMsg S NDEBUG d src_sid dest_sid msg_id args =
      SendNetServiceMsg S NDEBUG d src_sid dest_sid msg_id args := by
  have hr : (decide (dest_sid ≥ 0) && decide (dest_sid ≤ kMaxServiceId)) = true := by
    simp [h0, h1]
  simp [SendServiceMsg, hr, hreg]

/-- The size field and the byte count after it, for the little-endian
serializer and one argument of `n` zero bytes sent to an unregistered id. -/
theorem zeros_frame_size (n : Nat) (src_sid dest_sid : Int) (msg_id : Nat) :
    (frames (Outcome.sent (SendNetServiceMsg leSerializer false ServiceDispatcher.empty
        src_sid dest_sid msg_id [Blob.zeros n]))).map
      (fun data => (leSerializer.decU16 (data.take 2), data.length - 2)) =
      [((10 + n) % 65536, 10 + n)] := by
  have he : argsEncoded leSerializer [Blob.zeros n] = List.replicate n 0 := by
    simp [argsEncoded, leSerializer, Blob.zeros]
  have hp : argsProbed leSerializer [Blob.zeros n] = n := by
    simp [argsProbed, leSerializer, Blob.zeros]
  rw [SendNetServiceMsg_eq, he, hp]
  simp only [List.length_replicate, le_refl, if_true, Outcome.sent, frames, List.filterMap_cons,
    List.filterMap_nil, List.map_cons, List.map_nil, Nat.sub_self, List.replicate_zero,
    List.append_nil]
  have hl := leSerializer.encU16_length ((10 + n) % 65536)
  rw [List.take_left' hl, leSerializer.decU16_encU16 _ (Nat.mod_lt _ (by decide))]
  simp only [List.length_append, hl, leSerializer.encI32_length, leSerializer.encU16_length,
    List.length_replicate]
  congr 2
  omega

/-- C4 (as amended): for `dest_sid` in `[0, kMaxServiceId]`, if slot
`dest_sid` is registered `SendServiceMsg` builds no frame and hands exactly
one in-process message to `SendMsg(dest_sid, ...)`; if it is not registered,
the encoder writes as many bytes as the probe reported and the encoded pack
is shorter than 65536 bytes, it hands over one frame whose leading u16 equals
the number of bytes after the size field (buffer length - 2). -/
theorem SendServiceMsg_routing {A : Type} (S : Serializer A) (NDEBUG : Bool)
    (d : ServiceDispatcher) (src_sid dest_sid : Int) (msg_id : Nat) (args : List A)
    (h0 : 0 ≤ dest_sid) (h1 : dest_sid ≤ kMaxServiceId) :
    ((d._services dest_sid.toNat).isSome →
      SendServiceMsg S NDEBUG d src_sid dest_sid msg_id args =
        Outcome.ret [(dest_sid,
          { src_sid := src_sid, dest_sid := dest_sid, msg_id := msg_id
            payload := Payload.args args })] ∧
      frames (Outcome.sent (SendServiceMsg S NDEBUG d src_sid dest_sid msg_id args)) = []) ∧
    (d._services dest_sid.toNat = none →
      (argsEncoded S args).length = argsProbed S args →
      10 + argsProbed S args < 65536 →
      ∃ data, SendServiceMsg S NDEBUG d src_sid dest_sid msg_id args =
          Outcome.ret [(0,
            { src_sid := src_sid, dest_sid := 0
              msg_id := S.kProxyServiceMsgId_SendToRemoteService
              payload := Payload.frame dest_sid data })] ∧
        S.decU16 (data.take 2) = data.length - 2) := by
  constructor
  · intro hreg
    have e := SendServiceMsg_local S NDEBUG d src_sid dest_sid msg_id args h0 h1 hreg
    refine ⟨e, ?_⟩
    rw [e]
    rfl
  · intro hreg hsame hsmall
    rw [SendServiceMsg_remote S NDEBUG d src_sid dest_sid msg_id args h0 h1 hreg,
      SendNetServiceMsg_eq, if_pos (le_of_eq hsame)]
    refine ⟨_, rfl, ?_⟩
    have hl := S.encU16_length ((10 + (argsEncoded S args).length) % 65536)
    rw [List.append_assoc, List.take_left' hl, S.decU16_encU16 _ (Nat.mod_lt _ (by decide))]
    simp only [List.length_append, hl, S.encI32_length, S.encU16_length,
      List.length_replicate]
    rw [Nat.mod_eq_of_lt (by omega)]
    omega

theorem SendServiceMsg_routing_witness :
    (SendServiceMsg leSerializer false ServiceDispatcher.withFive 3 5 9 [Blob.zeros 2] =
        Outcome.ret [(5,
          { src_sid := 3, dest_sid := 5, msg_id := 9
            payload := Payload.args [Blob.zeros 2] })] ∧
      frames (Outcome.sent
        (SendServiceMsg leSerializer false ServiceDispatcher.withFive 3 5 9 [Blob.zeros 2])) =
        []) ∧
    ∃ data, SendServiceMsg leSerializer false ServiceDispatcher.withFive 3 6 9 [Blob.zeros 2] =
        Outcome.ret [(0,
          { src_sid := 3, dest_sid := 0
            msg_id := leSerializer.kProxyServiceMsgId_SendToRemoteService
            payload := Payload.frame 6 data })] ∧
      leSerializer.decU16 (data.take 2) = data.length - 2 :=
  ⟨(SendServiceMsg_routing leSerializer false ServiceDispatcher.withFive 3 5 9 [Blob.zeros 2]
      (by decide) (by decide)).1 rfl,
    (SendServiceMsg_routing leSerializer false ServiceDispatcher.withFive 3 6 9 [Blob.zeros 2]
      (by decide) (by decide)).2 rfl rfl (by decide)⟩

/-- C4 as stated fails: sent to the unregistered id 7, an argument of 65526
bytes gives a frame whose size field reads 0 while 65536 bytes follow it
(the `(uint16_t)` cast of line 78 truncates), and an argument whose encoder
writes 1 byte where its probe reported 4 gives a frame whose size field
reads 11 while 14 bytes follow it. -/
theorem SendServiceMsg_routing_counterexample :
    (frames (Outcome.sent (SendServiceMsg leSerializer false ServiceDispatcher.empty
        1 7 9 [Blob.zeros 65526]))).map
      (fun data => (leSerializer.decU16 (data.take 2), data.length - 2)) = [(0, 65536)] ∧
    (frames (Outcome.sent (SendServiceMsg leSerializer false ServiceDispatcher.empty
        1 7 9 [{ probe := 4, bytes := [7] }]))).map
      (fun data => (leSerializer.decU16 (data.take 2), data.length - 2)) = [(11, 14)] := by
  constructor
  · rw [SendServiceMsg_remote leSerializer false ServiceDispatcher.empty 1 7 9 _
      (by decide) (by decide) rfl]
    exact zeros_frame_size 65526 1 7 9
  · decide

/-- The encoder of line 72 succeeds exactly when the bytes written for the
caller arguments fit the probed size. -/
theorem AutoEncode_net_isSome_iff {A : Type} (S : Serializer A) (src_sid dest_sid : Int)
    (msg_id : Nat) (args : List A) :
    (netEncode S src_sid dest_sid msg_id args).isSome ↔
      (argsEncoded S args).length ≤ argsProbed S args := by
  unfold netEncode
  rw [AutoEncode_eq S _ _ _ (Nat.zero_le _)
    (by simp only [List.length_replicate, AutoGetSize_net]; omega)]
  simp only [fieldsEncoded_net_length, AutoGetSize_net, Nat.zero_add]
  by_cases h : (argsEncoded S args).length ≤ argsProbed S args
  · have hc : 10 + (argsEncoded S args).length ≤ 12 + argsProbed S args - 2 := by omega
    simp [hc, h]
  · have hc : ¬ 10 + (argsEncoded S args).length ≤ 12 + argsProbed S args - 2 := by omega
    simp [hc, h]

/-- C5 (as amended): whenever the encoded arguments fit the probed size, the
buffer `SendNetServiceMsg` hands to the bridging service is the 2-byte size
field followed by exactly the encoding of `src_sid`, then `dest_sid`, then
`msg_id`, then the args in order, and after them only as many zero bytes as
the encoder wrote fewer than the probe reported (none when the two agree). -/
theorem SendNetServiceMsg_layout {A : Type} (S : Serializer A) (NDEBUG : Bool)
    (d : ServiceDispatcher) (src_sid dest_sid : Int) (msg_id : Nat) (args : List A)
    (hfit : (argsEncoded S args).length ≤ argsProbed S args) :
    ∃ data, frames (Outcome.sent (SendNetServiceMsg S NDEBUG d src_sid dest_sid msg_id args)) =
        [data] ∧
      (data.take 2).length = 2 ∧
      data.drop 2 =
        S.encI32 src_sid ++ S.encI32 dest_sid ++ S.encU16 msg_id ++ argsEncoded S args ++
          List.replicate (argsProbed S args - (argsEncoded S args).length) 0 := by
  rw [SendNetServiceMsg_eq, if_pos hfit]
  refine ⟨_, rfl, ?_, ?_⟩
  · simp only [List.length_take, List.length_append, S.encU16_length]
    omega
  · rw [List.append_assoc,
      List.drop_left' (S.encU16_length ((10 + (argsEncoded S args).length) % 65536))]
    simp only [List.append_assoc]

theorem SendNetServiceMsg_layout_witness :
    ∃ data, frames (Outcome.sent (SendNetServiceMsg leSerializer false ServiceDispatcher.empty
        1 2 3 [{ probe := 2, bytes := [8, 9] }])) = [data] ∧
      (data.take 2).length = 2 ∧
      data.drop 2 =
        leSerializer.encI32 1 ++ leSerializer.encI32 2 ++ leSerializer.encU16 3 ++
          argsEncoded leSerializer [{ probe := 2, bytes := [8, 9] }] ++
          List.replicate (argsProbed leSerializer [{ probe := 2, bytes := [8, 9] }] -
            (argsEncoded leSerializer [{ probe := 2, bytes := [8, 9] }]).length) 0 :=
  SendNetServiceMsg_layout leSerializer false ServiceDispatcher.empty 1 2 3
    [{ probe := 2, bytes := [8, 9] }] (by decide)

/-- C5 as stated fails: for `SendNetServiceMsg(1, 2, 3)` without arguments
the bytes after the size field start with the encoding of `src_sid` (1);
they are not the encoding of `dest_sid`, `msg_id` and the args alone. -/
theorem SendNetServiceMsg_layout_counterexample :
    frames (Outcome.sent (SendNetServiceMsg leSerializer false ServiceDispatcher.empty
        1 2 3 [])) = [[10, 0, 1, 0, 0, 0, 2, 0, 0, 0, 3, 0]] ∧
      List.drop 2 [10, 0, 1, 0, 0, 0, 2, 0, 0, 0, 3, 0] ≠
        leSerializer.encI32 2 ++ leSerializer.encU16 3 ++ argsEncoded leSerializer [] := by
  decide

/-- C6 (as amended): when the encoder needs more bytes for the arguments
than the probe reported, `AutoEncode` fails and `SendNetServiceMsg` halts the
send: `assert(false)` terminates the process, or with assertions compiled
out the function returns, and in both cases nothing is handed to `SendMsg`. -/
theorem SendNetServiceMsg_overflow {A : Type} (S : Serializer A) (NDEBUG : Bool)
    (d : ServiceDispatcher) (src_sid dest_sid : Int) (msg_id : Nat) (args : List A)
    (hover : argsProbed S args < (argsEncoded S args).length) :
    SendNetServiceMsg S NDEBUG d src_sid dest_sid msg_id args =
        (if NDEBUG then Outcome.ret [] else Outcome.abort) ∧
      Outcome.sent (SendNetServiceMsg S NDEBUG d src_sid dest_sid msg_id args) = [] := by
  have e : SendNetServiceMsg S NDEBUG d src_sid dest_sid msg_id args =
      (if NDEBUG then Outcome.ret [] else Outcome.abort) := by
    rw [SendNetServiceMsg_eq, if_neg (by omega)]
  refine ⟨e, ?_⟩
  rw [e]
  cases NDEBUG <;> rfl

theorem SendNetServiceMsg_overflow_witness :
    SendNetServiceMsg leSerializer true ServiceDispatcher.empty 1 2 3
        [{ probe := 1, bytes := [8, 9] }] =
        (if true then Outcome.ret [] else Outcome.abort) ∧
      Outcome.sent (SendNetServiceMsg leSerializer true ServiceDispatcher.empty 1 2 3
        [{ probe := 1, bytes := [8, 9] }]) = [] :=
  SendNetServiceMsg_overflow leSerializer true ServiceDispatcher.empty 1 2 3
    [{ probe := 1, bytes := [8, 9] }] (by decide)

/-- C6 as stated fails: for an argument whose probe reports 4 bytes and
whose encoder writes 1, the probed size less the size field is 14 and the
encoder writes 11 bytes, yet `SendMsg(0, ...)` is called with the frame. -/
theorem SendNetServiceMsg_overflow_counterexample :
    AutoGetSize leSerializer
        (Field.u16 0 :: netFields 1 2 3 [({ probe := 4, bytes := [7] } : Blob)]) - 2 = 14 ∧
      (AutoEncode leSerializer { base := 2, capacity := 14, pos := 0 } (List.replicate 16 0)
        (netFields 1 2 3 [({ probe := 4, bytes := [7] } : Blob)])).map
          (fun r => r.1.GetStreamLength) = some 11 ∧
      SendNetServiceMsg leSerializer false ServiceDispatcher.empty 1 2 3
          [{ probe := 4, bytes := [7] }] =
        Outcome.ret [(0,
          { src_sid := 1, dest_sid := 0, msg_id := 1
            payload := Payload.frame 2
              [11, 0, 1, 0, 0, 0, 2, 0, 0, 0, 3, 0, 7, 0, 0, 0] })] := by
  decide

/-- C7: whenever the encoding of line 72 succeeds, `SendNetServiceMsg` gives
the same result in every dispatcher state, registered destination or not,
and hands exactly one message to `SendMsg` with target id 0, envelope
`src_sid` = the caller's, `dest_sid` = 0, `msg_id` =
`kProxyServiceMsgId_SendToRemoteService`, and payload the pair of the
original `dest_sid` and the frame buffer. -/
theorem SendNetServiceMsg_forwards {A : Type} (S : Serializer A) (NDEBUG : Bool)
    (d d2 : ServiceDispatcher) (src_sid dest_sid : Int) (msg_id : Nat) (args : List A)
    (henc : (netEncode S src_sid dest_sid msg_id args).isSome) :
    SendNetServiceMsg S NDEBUG d src_sid dest_sid msg_id args =
        SendNetServiceMsg S NDEBUG d2 src_sid dest_sid msg_id args ∧
      ∃ data, data.length = AutoGetSize S
            (Field.u16 0 :: netFields src_sid dest_sid msg_id args) ∧
        SendNetServiceMsg S NDEBUG d src_sid dest_sid msg_id args =
          Outcome.ret [(0,
            { src_sid := src_sid, dest_sid := 0
              msg_id := S.kProxyServiceMsgId_SendToRemoteService
              payload := Payload.frame dest_sid data })] := by
  have hfit := (AutoEncode_net_isSome_iff S src_sid dest_sid msg_id args).1 henc
  constructor
  · rw [SendNetServiceMsg_eq, SendNetServiceMsg_eq]
  · rw [SendNetServiceMsg_eq, if_pos hfit, AutoGetSize_net]
    refine ⟨_, ?_, rfl⟩
    simp only [List.length_append, S.encI32_length, S.encU16_length, List.length_replicate]
    omega

theorem SendNetServiceMsg_forwards_witness :
    SendNetServiceMsg leSerializer false ServiceDispatcher.withFive 3 5 9 [Blob.zeros 2] =
        SendNetServiceMsg leSerializer false ServiceDispatcher.empty 3 5 9 [Blob.zeros 2] ∧
      ∃ data, data.length = AutoGetSize leSerializer
            (Field.u16 0 :: netFields 3 5 9 [Blob.zeros 2]) ∧
        SendNetServiceMsg leSerializer false ServiceDispatcher.withFive 3 5 9 [Blob.zeros 2] =
          Outcome.ret [(0,
            { src_sid := 3, dest_sid := 0
              msg_id := leSerializer.kProxyServiceMsgId_SendToRemoteService
              payload := Payload.frame 5 data })] :=
  SendNetServiceMsg_forwards leSerializer false ServiceDispatcher.withFive
    ServiceDispatcher.empty 3 5 9 [Blob.zeros 2] (by decide)

end sframe
